import Mathlib

/-!
Verification development for the airsim-client repository: a shallow
embedding of the msgpack wire-value model, the typed codec layer
(geometry and sensor decoders in src/types) and the command facade
(src/clients/multi_rotor_client.rs), together with theorems checking the
natural-language specification against this embedding.

Floating-point values are modelled at the bit level: a 32-bit float is a
sign bit, an 8-bit exponent field and a 23-bit fraction field; a 64-bit
float likewise with 11/52 bits.  The Rust decode paths convert wire
numbers through f64 and then cast to f32 with round-to-nearest-even;
both conversions are defined here on the bit-level representation.
Rust panics (unwrap, out-of-bounds indexing, explicit aborts) are
modelled by Option.none: a decoder returns none exactly when the Rust
code would abort.
-/

namespace AirSim

/-- Bit-level IEEE-754 binary32 value: sign, 8-bit exponent field, 23-bit
fraction field. -/
structure Float32 where
  sign : Bool
  exp : Nat
  frac : Nat
deriving DecidableEq, Repr

/-- Bit-level IEEE-754 binary64 value: sign, 11-bit exponent field, 52-bit
fraction field. -/
structure Float64 where
  sign : Bool
  exp : Nat
  frac : Nat
deriving DecidableEq, Repr

/-- Well-formedness of the binary32 bit fields. -/
def Float32.WF (a : Float32) : Prop := a.exp < 256 ∧ a.frac < 2 ^ 23

/-- A binary32 value is finite when its exponent field is not all ones
(neither an infinity nor a NaN). -/
def Float32.Finite (a : Float32) : Prop := a.exp ≠ 255

/-- The positive zero of binary32 (the bit pattern of the literal 0.0f32). -/
def f32Zero : Float32 := ⟨false, 0, 0⟩

/-- Round N * 2 ^ d to a natural number, ties to even (the IEEE-754
default rounding used by Rust float casts). -/
def roundShift (N : Nat) (d : Int) : Nat :=
  if 0 ≤ d then N * 2 ^ d.toNat
  else
    let s := (-d).toNat
    let q := N / 2 ^ s
    let r := N % 2 ^ s
    let half := 2 ^ (s - 1)
    if half < r then q + 1
    else if r < half then q
    else if q % 2 = 0 then q else q + 1

/-- Fuel-driven floor of the base-2 logarithm; structurally recursive so
that concrete decodes evaluate inside the kernel. -/
def log2Aux : Nat → Nat → Nat
  | 0, _ => 0
  | fuel + 1, n => if n ≤ 1 then 0 else log2Aux fuel (n / 2) + 1

/-- Floor of the base-2 logarithm (proved equal to Nat.log2 below). -/
def log2 (n : Nat) : Nat := log2Aux n n

/-- Round the positive real N * 2 ^ E2 to the nearest binary32 value
(ties to even, overflow to infinity), attaching the given sign. -/
def mkF32 (sg : Bool) (N : Nat) (E2 : Int) : Float32 :=
  if N = 0 then ⟨sg, 0, 0⟩
  else
    let p : Int := (log2 N : Int) + E2
    if p < -126 then
      let M := roundShift N (E2 + 149)
      if M < 2 ^ 23 then ⟨sg, 0, M⟩ else ⟨sg, 1, M - 2 ^ 23⟩
    else
      let M := roundShift N (E2 - p + 23)
      let M2 := if M < 2 ^ 24 then M else M / 2
      let p2 := if M < 2 ^ 24 then p else p + 1
      if 127 < p2 then ⟨sg, 255, 0⟩ else ⟨sg, (p2 + 127).toNat, M2 - 2 ^ 23⟩

/-- Round the positive real N * 2 ^ E2 to the nearest binary64 value
(ties to even, overflow to infinity), attaching the given sign. -/
def mkF64 (sg : Bool) (N : Nat) (E2 : Int) : Float64 :=
  if N = 0 then ⟨sg, 0, 0⟩
  else
    let p : Int := (log2 N : Int) + E2
    if p < -1022 then
      let M := roundShift N (E2 + 1074)
      if M < 2 ^ 52 then ⟨sg, 0, M⟩ else ⟨sg, 1, M - 2 ^ 52⟩
    else
      let M := roundShift N (E2 - p + 52)
      let M2 := if M < 2 ^ 53 then M else M / 2
      let p2 := if M < 2 ^ 53 then p else p + 1
      if 1023 < p2 then ⟨sg, 2047, 0⟩ else ⟨sg, (p2 + 1023).toNat, M2 - 2 ^ 52⟩

/-- The exact widening conversion f32 to f64 (Rust: f64::from). -/
def Float32.widen (a : Float32) : Float64 :=
  if a.exp = 255 then ⟨a.sign, 2047, a.frac * 2 ^ 29⟩
  else if a.exp = 0 then
    if a.frac = 0 then ⟨a.sign, 0, 0⟩
    else
      let k := log2 a.frac
      ⟨a.sign, k + 874, (a.frac - 2 ^ k) * 2 ^ (52 - k)⟩
  else ⟨a.sign, a.exp + 896, a.frac * 2 ^ 29⟩

/-- The narrowing conversion f64 to f32 (the Rust cast with the as
keyword): round to nearest, ties to even; NaN stays NaN. -/
def Float64.narrow (b : Float64) : Float32 :=
  if b.exp = 2047 then
    if b.frac = 0 then ⟨b.sign, 255, 0⟩
    else
      let f := b.frac / 2 ^ 29
      ⟨b.sign, 255, if f = 0 then 2 ^ 22 else f⟩
  else
    let N := if b.exp = 0 then b.frac else 2 ^ 52 + b.frac
    let E2 : Int := (if b.exp = 0 then 1 else (b.exp : Int)) - 1075
    mkF32 b.sign N E2

/-- The Rust cast of a 64-bit signed integer to f64 (round to nearest,
ties to even). -/
def f64OfInt (i : Int) : Float64 := mkF64 (decide (i < 0)) i.natAbs 0

/-- The msgpack wire value model (rmpv::Value as used by the client):
nil, booleans, integers, 32- and 64-bit floats, strings, binary blobs,
ordered arrays and ordered key/value maps. -/
inductive Value where
  | Nil : Value
  | Boolean : Bool → Value
  | Integer : Int → Value
  | F32 : Float32 → Value
  | F64 : Float64 → Value
  | Str : String → Value
  | Binary : List Nat → Value
  | Arr : List Value → Value
  | Map : List (Value × Value) → Value

/-- Value::as_map: Some on a Map, None otherwise. -/
def Value.as_map : Value → Option (List (Value × Value))
  | .Map m => some m
  | _ => none

/-- Value::as_f64 (rmpv): integers cast to f64, an F32 widened exactly,
an F64 returned as is; every other kind yields None. -/
def Value.as_f64 : Value → Option Float64
  | .Integer i => some (f64OfInt i)
  | .F32 v => some v.widen
  | .F64 v => some v
  | _ => none

/-- Value::as_u64 (rmpv): Some for a non-negative integer. -/
def Value.as_u64 : Value → Option Nat
  | .Integer i => if 0 ≤ i then some i.toNat else none
  | _ => none

/-- Value::as_bool (rmpv): Some on a Boolean. -/
def Value.as_bool : Value → Option Bool
  | .Boolean b => some b
  | _ => none

/-- An RPC response frame as seen by the decoders
(msgpack_rpc::message::Response): the result slot is Ok(value) when the
frame's error slot was nil, Err(error value) otherwise. -/
structure Response where
  result : Except Value Value

/-- The domain Vector3 (src/types/vector.rs): three 32-bit floats. -/
structure Vector3 where
  x : Float32
  y : Float32
  z : Float32
deriving DecidableEq, Repr

/-- Vector3::as_msgpack (src/types/vector.rs lines 15-28): build the
three-entry map, then pass it through as_map and rebuild a Map exactly as
the source does.  The unwrap in the source cannot fail there because the
value just built is a Map; the impossible branch returns Nil. -/
def Vector3.as_msgpack (v : Vector3) : Value :=
  let val := Value.Map [(Value.Str "x_val", Value.F32 v.x),
                        (Value.Str "y_val", Value.F32 v.y),
                        (Value.Str "z_val", Value.F32 v.z)]
  match val.as_map with
  | some msg => Value.Map msg
  | none => Value.Nil

/-- The decode loop shared by the Vector3 and Quaternionr From(Value)
impls: walk every map entry in order, convert each entry's value with
as_f64().unwrap() and cast it to f32; none models the unwrap panic on a
non-numeric entry. -/
def decodePoints : List (Value × Value) → Option (List Float32)
  | [] => some []
  | kv :: rest =>
    kv.2.as_f64.bind fun p =>
    (decodePoints rest).bind fun ps =>
    some (p.narrow :: ps)

/-- From(Value) for Vector3 (src/types/vector.rs lines 31-45): as_map
unwrap, positional read of entries 0,1,2; none models the panics on a
non-Map input, a non-numeric entry or a map shorter than 3. -/
def Vector3.fromValue (msgpack : Value) : Option Vector3 :=
  msgpack.as_map.bind fun payload =>
  (decodePoints payload).bind fun points =>
  (points.get? 0).bind fun x =>
  (points.get? 1).bind fun y =>
  (points.get? 2).bind fun z =>
  some ⟨x, y, z⟩

/-- The domain quaternion (src/types/quaternion.rs), stored in the
nalgebra order w, i, j, k given to Quaternion::new. -/
structure Quaternionr where
  w : Float32
  i : Float32
  j : Float32
  k : Float32
deriving DecidableEq, Repr

/-- From(Value) for Quaternionr (src/types/quaternion.rs lines 7-18):
as_map unwrap, positional read of entries 0,1,2,3. -/
def Quaternionr.fromValue (msgpack : Value) : Option Quaternionr :=
  msgpack.as_map.bind fun payload =>
  (decodePoints payload).bind fun points =>
  (points.get? 0).bind fun w =>
  (points.get? 1).bind fun i =>
  (points.get? 2).bind fun j =>
  (points.get? 3).bind fun k =>
  some ⟨w, i, j, k⟩

/-- ImageType (src/types/sensors.rs lines 8-19): the nine camera image
kinds. -/
inductive ImageType where
  | Scene
  | DepthPlanar
  | DepthPerspective
  | DepthVis
  | DisparityNormalized
  | SurfaceNormals
  | Infrared
  | OpticalFlow
  | OpticalFlowVis
deriving DecidableEq, Repr

/-- ImageType::as_msgpack (src/types/sensors.rs lines 21-37): each
variant encodes to its fixed integer wire code. -/
def ImageType.as_msgpack : ImageType → Value
  | .Scene => Value.Integer 0
  | .DepthPlanar => Value.Integer 1
  | .DepthPerspective => Value.Integer 2
  | .DepthVis => Value.Integer 3
  | .DisparityNormalized => Value.Integer 4
  | .SurfaceNormals => Value.Integer 5
  | .Infrared => Value.Integer 6
  | .OpticalFlow => Value.Integer 7
  | .OpticalFlowVis => Value.Integer 8

/-- ImuData (src/types/sensors.rs lines 101-106). -/
structure ImuData where
  timestamp : Nat
  orientation : Quaternionr
  angular_velocity : Vector3
  linear_acceleration : Vector3
deriving DecidableEq, Repr

/-- From(Response) for ImuData (src/types/sensors.rs lines 108-128):
positional reads of entries 0..3 of the result map; none models the
panics on an Err result, a non-Map result, a short map or an
uncoercible field. -/
def ImuData.fromResponse (msgpack : Response) : Option ImuData :=
  match msgpack.result with
  | .error _ => none
  | .ok res =>
    res.as_map.bind fun payload =>
    (payload.get? 0).bind fun kv0 =>
    kv0.2.as_u64.bind fun timestamp =>
    (payload.get? 1).bind fun kv1 =>
    (Quaternionr.fromValue kv1.2).bind fun orientation =>
    (payload.get? 2).bind fun kv2 =>
    (Vector3.fromValue kv2.2).bind fun angular_velocity =>
    (payload.get? 3).bind fun kv3 =>
    (Vector3.fromValue kv3.2).bind fun linear_acceleration =>
    some ⟨timestamp, orientation, angular_velocity, linear_acceleration⟩

/-- MagnetometerData (src/types/sensors.rs lines 157-161). -/
structure MagnetometerData where
  timestamp : Nat
  magnetic_field : Vector3
  magnetic_field_covariance : Float32
deriving DecidableEq, Repr

/-- From(Response) for MagnetometerData (src/types/sensors.rs lines
163-176): reads the timestamp and the field vector positionally; the
covariance read is commented out in the source and the field is
hardcoded to 0.0. -/
def MagnetometerData.fromResponse (msgpack : Response) : Option MagnetometerData :=
  match msgpack.result with
  | .error _ => none
  | .ok res =>
    res.as_map.bind fun payload =>
    (payload.get? 0).bind fun kv0 =>
    kv0.2.as_u64.bind fun timestamp =>
    (payload.get? 1).bind fun kv1 =>
    (Vector3.fromValue kv1.2).bind fun magnetic_field =>
    some ⟨timestamp, magnetic_field, f32Zero⟩

/-- GnssFixType (src/types/sensors.rs lines 252-258). -/
inductive GnssFixType where
  | GnssFixNoFix
  | GnssFixTimeOnly
  | GnssFix2DFix
  | GnssFix3DFix
deriving DecidableEq, Repr

/-- The fix-type match inside From(Value) for GnssReport
(src/types/sensors.rs lines 240-246): codes 0..3 map to the variants and
any other code hits the abort arm, modelled by none. -/
def gnssFixTypeOfCode : Nat → Option GnssFixType
  | 0 => some .GnssFixNoFix
  | 1 => some .GnssFixTimeOnly
  | 2 => some .GnssFix2DFix
  | 3 => some .GnssFix3DFix
  | _ => none

/-- Modelled from the spec: GeoPoint (lat, lon, alt) — its defining file
src/types/geopoint.rs is not under src/.  Spec section 3 gives the three
fields and section 4.2 the positional map decode shared by all
geometry types. -/
structure GeoPoint where
  lat : Float32
  lon : Float32
  alt : Float32
deriving DecidableEq, Repr

/-- Modelled from the spec: the GeoPoint decode, positional like the
Vector3 decode (spec section 4.2: verify Map, read fields positionally,
coerce numerics to float32). -/
def GeoPoint.fromValue (msgpack : Value) : Option GeoPoint :=
  msgpack.as_map.bind fun payload =>
  (decodePoints payload).bind fun points =>
  (points.get? 0).bind fun lat =>
  (points.get? 1).bind fun lon =>
  (points.get? 2).bind fun alt =>
  some ⟨lat, lon, alt⟩

/-- GnssReport (src/types/sensors.rs lines 225-232). -/
structure GnssReport where
  geo_point : GeoPoint
  eph : Float32
  epv : Float32
  velocity : Vector3
  fix_type : GnssFixType
  time_utc : Nat
deriving DecidableEq, Repr

/-- From(Value) for GnssReport (src/types/sensors.rs lines 233-250):
positional reads of entries 0..5; the fix-type arm aborts (none) on a
code outside 0..3. -/
def GnssReport.fromValue (msgpack : Value) : Option GnssReport :=
  msgpack.as_map.bind fun payload =>
  (payload.get? 0).bind fun kv0 =>
  (GeoPoint.fromValue kv0.2).bind fun geo_point =>
  (payload.get? 1).bind fun kv1 =>
  kv1.2.as_f64.bind fun f1 =>
  (payload.get? 2).bind fun kv2 =>
  kv2.2.as_f64.bind fun f2 =>
  (payload.get? 3).bind fun kv3 =>
  (Vector3.fromValue kv3.2).bind fun velocity =>
  (payload.get? 4).bind fun kv4 =>
  kv4.2.as_u64.bind fun code =>
  (gnssFixTypeOfCode code).bind fun fix_type =>
  (payload.get? 5).bind fun kv5 =>
  kv5.2.as_u64.bind fun time_utc =>
  some ⟨geo_point, f1.narrow, f2.narrow, velocity, fix_type, time_utc⟩

/-- Modelled from the spec: Position (x, y, z: float32) — its defining
file src/types/pose.rs is not under src/; the facade reads the three
f32 components directly (src/clients/multi_rotor_client.rs lines
139-141). -/
structure Position where
  x : Float32
  y : Float32
  z : Float32
deriving DecidableEq, Repr

/-- Modelled from the spec: DrivetrainType (enum, 2 variants) — its
defining file src/types/drive_train.rs is not under src/.  Wire codes
from the spec table: MaxDegreeOfFreedom = 0, ForwardOnly = 1. -/
inductive DrivetrainType where
  | MaxDegreeOfFreedom
  | ForwardOnly
deriving DecidableEq, Repr

/-- Modelled from the spec: DrivetrainType::to_msgpack encodes the fixed
integer code (spec section 4.2 enumeration table). -/
def DrivetrainType.to_msgpack : DrivetrainType → Value
  | .MaxDegreeOfFreedom => Value.Integer 0
  | .ForwardOnly => Value.Integer 1

/-- Modelled from the spec: YawMode (is_rate: bool, yaw_or_rate:
float32) — its defining file src/types/yaw_mode.rs is not under src/. -/
structure YawMode where
  is_rate : Bool
  yaw_or_rate : Float32
deriving DecidableEq, Repr

/-- Modelled from the spec: YawMode::to_msgpack produces the two-field
ordered map in the spec section 3 field order (is_rate, yaw_or_rate). -/
def YawMode.to_msgpack (ym : YawMode) : Value :=
  Value.Map [(Value.Str "is_rate", Value.Boolean ym.is_rate),
             (Value.Str "yaw_or_rate", Value.F32 ym.yaw_or_rate)]

/-- The request assembled by MultiRotorClient::move_to_position_async
(src/clients/multi_rotor_client.rs lines 122-149): the method name and
the ordered parameter list handed to unary_rpc, with the lookahead
defaults applied exactly as in the source (unwrap_or(-1),
unwrap_or(0)). -/
def moveToPositionAsyncRequest (position : Position) (velocity : Float32)
    (timeout_sec : Float32) (drivetrain : DrivetrainType) (yaw_mode : YawMode)
    (lookahead : Option Int) (adaptive_lookahead : Option Int) :
    String × List Value :=
  let la := lookahead.getD (-1)
  let ala := adaptive_lookahead.getD 0
  ("moveToPositionAsync",
    [Value.F32 position.x,
     Value.F32 position.y,
     Value.F32 position.z,
     Value.F32 velocity,
     Value.F32 timeout_sec,
     drivetrain.to_msgpack,
     yaw_mode.to_msgpack,
     Value.Integer la,
     Value.Integer ala])

/-- The response mapping of MultiRotorClient::move_to_position_async
(src/clients/multi_rotor_client.rs lines 152-156): the returned boolean
is response.result.is_ok(), ignoring the result value itself. -/
def moveToPositionResult (response : Response) : Bool :=
  match response.result with
  | .ok _ => true
  | .error _ => false

/-- The response mapping of MultiRotorClient::take_off_async
(src/clients/multi_rotor_client.rs line 101): true only when the result
is Ok and its value is the boolean true. -/
def takeOffResult (response : Response) : Bool :=
  match response.result with
  | .ok v => v.as_bool == some true
  | .error _ => false

/-- Modelled from the spec: the transport's in-flight state — the
monotonically increasing request-id counter and the table of pending
request ids (spec section 3, Connection).  The transport implementation
(airsim_client.rs) is not under src/. -/
structure TransportState where
  next : Nat
  table : List Nat
deriving DecidableEq, Repr

/-- The transport state of a freshly connected client: counter at zero,
no in-flight calls. -/
def TransportState.init : TransportState := ⟨0, []⟩

/-- Modelled from the spec: the events acting on the in-flight table
(spec sections 4.1 and 5) — sending a request frame, the decode loop
delivering a response for an id, a per-call timeout expiring for an id,
and connection loss. -/
inductive TransportEvent where
  | send
  | respond : Nat → TransportEvent
  | timeout : Nat → TransportEvent
  | lost
deriving DecidableEq, Repr

/-- Modelled from the spec: the transition function on the in-flight
table.  send registers a PendingCall under the next id; respond resolves
and removes a matching pending id and silently drops an unknown id
(spec section 4.1, decode loop); timeout evicts the entry if still
pending; lost resolves and removes every outstanding entry. -/
def TransportState.step (s : TransportState) : TransportEvent → TransportState
  | .send => ⟨s.next + 1, s.next :: s.table⟩
  | .respond id => if id ∈ s.table then ⟨s.next, s.table.filter (· ≠ id)⟩ else s
  | .timeout id => if id ∈ s.table then ⟨s.next, s.table.filter (· ≠ id)⟩ else s
  | .lost => ⟨s.next, []⟩

/-- Modelled from the spec: whether an event resolves the PendingCall of
the given request id in the given state — a response or timeout for a
still-pending id, or connection loss while the id is outstanding. -/
def resolves (s : TransportState) (ev : TransportEvent) (id : Nat) : Bool :=
  match ev with
  | .send => false
  | .respond i => i == id && id ∈ s.table
  | .timeout i => i == id && id ∈ s.table
  | .lost => id ∈ s.table

/-- How many times a given request id gets resolved along a run of the
transport from state s through the listed events. -/
def resolvedCount (s : TransportState) (evs : List TransportEvent) (id : Nat) : Nat :=
  match evs with
  | [] => 0
  | ev :: rest =>
    (if resolves s ev id then 1 else 0) + resolvedCount (s.step ev) rest id


/-- A concrete, fully well-formed magnetometer response payload, used to
exhibit an accepted decode. -/
def magSampleResponse : Response :=
  ⟨Except.ok (Value.Map
    [(Value.Str "time_stamp", Value.Integer 7),
     (Value.Str "magnetic_field_body",
        Value.Map [(Value.Str "x_val", Value.F32 f32Zero),
                   (Value.Str "y_val", Value.F32 f32Zero),
                   (Value.Str "z_val", Value.F32 f32Zero)])])⟩

/-- A GnssReport wire payload that is well-formed in every field and
carries the given integer fix-type code at position 4. -/
def gnssSamplePayload (c : Nat) : Value :=
  Value.Map
    [(Value.Str "geo_point",
        Value.Map [(Value.Str "latitude", Value.F32 f32Zero),
                   (Value.Str "longitude", Value.F32 f32Zero),
                   (Value.Str "altitude", Value.F32 f32Zero)]),
     (Value.Str "eph", Value.F32 f32Zero),
     (Value.Str "epv", Value.F32 f32Zero),
     (Value.Str "velocity",
        Value.Map [(Value.Str "x_val", Value.F32 f32Zero),
                   (Value.Str "y_val", Value.F32 f32Zero),
                   (Value.Str "z_val", Value.F32 f32Zero)]),
     (Value.Str "fix_type", Value.Integer (c : Int)),
     (Value.Str "time_utc", Value.Integer 0)]

/-! ## Helper lemmas -/

theorem log2Aux_eq (fuel : Nat) : ∀ n : Nat, n ≤ fuel → log2Aux fuel n = Nat.log2 n := by
  induction fuel with
  | zero =>
    intro n hn
    interval_cases n
    simp [log2Aux, Nat.log2_eq_log_two]
  | succ fuel ih =>
    intro n hn
    by_cases h1 : n ≤ 1
    · interval_cases n <;> simp [log2Aux, Nat.log2_eq_log_two]
    · have h2 : 2 ≤ n := by omega
      have hdiv : n / 2 ≤ fuel := by
        have := Nat.div_lt_self (by omega : 0 < n) (by omega : 1 < 2)
        omega
      have : log2Aux (fuel + 1) n = log2Aux fuel (n / 2) + 1 := by
        simp [log2Aux, h1]
      rw [this, ih _ hdiv]
      conv_rhs => rw [Nat.log2]
      simp [h2]

theorem log2_eq_natLog2 (n : Nat) : log2 n = Nat.log2 n :=
  log2Aux_eq n n le_rfl

theorem log2_eq_of (n k : Nat) (h1 : 2 ^ k ≤ n) (h2 : n < 2 ^ (k + 1)) :
    log2 n = k := by
  rw [log2_eq_natLog2, Nat.log2_eq_log_two]
  exact Nat.log_eq_of_pow_le_of_lt_pow h1 h2

theorem roundShift_exact (m t : Nat) : roundShift (m * 2 ^ t) (-(t : Int)) = m := by
  unfold roundShift
  rcases Nat.eq_zero_or_pos t with ht | ht
  · subst ht; simp
  · rw [if_neg (by omega : ¬(0 : Int) ≤ -(t : Int))]
    have hs : ((-(-(t : Int))).toNat) = t := by omega
    simp only [hs]
    have hq : m * 2 ^ t / 2 ^ t = m := Nat.mul_div_cancel m (Nat.two_pow_pos t)
    have hr : m * 2 ^ t % 2 ^ t = 0 := Nat.mul_mod_left m (2 ^ t)
    rw [hq, hr]
    have hhalf : 0 < 2 ^ (t - 1) := Nat.two_pow_pos (t - 1)
    rw [if_neg (by omega), if_pos (by omega)]

theorem pow_2_ne_zero (n : Nat) : (2 : Nat) ^ n ≠ 0 := (Nat.two_pow_pos n).ne.symm

theorem narrow_widen (a : Float32) (hexp : a.exp < 256) (hfrac : a.frac < 2 ^ 23)
    (hfin : a.exp ≠ 255) : a.widen.narrow = a := by
  obtain ⟨sg, e, f⟩ := a
  simp only at hexp hfrac hfin
  by_cases he : e = 0
  · subst he
    by_cases hf : f = 0
    · subst hf
      simp [Float32.widen, Float64.narrow, mkF32]
    · -- subnormal: 0 < f < 2 ^ 23, exponent field zero
      have hk1 : 2 ^ log2 f ≤ f := by rw [log2_eq_natLog2]; exact Nat.log2_self_le hf
      have hk2 : f < 2 ^ (log2 f + 1) := by rw [log2_eq_natLog2]; exact Nat.lt_log2_self
      have hk22 : log2 f ≤ 22 := by
        by_contra hcon
        have : 2 ^ 23 ≤ 2 ^ log2 f := Nat.pow_le_pow_right (by omega) (by omega)
        omega
      have hw : Float32.widen ⟨sg, 0, f⟩ =
          ⟨sg, log2 f + 874, (f - 2 ^ log2 f) * 2 ^ (52 - log2 f)⟩ := by
        simp [Float32.widen, hf]
      rw [hw]
      have hN : 2 ^ 52 + (f - 2 ^ log2 f) * 2 ^ (52 - log2 f) = f * 2 ^ (52 - log2 f) := by
        have h52 : (2 : Nat) ^ 52 = 2 ^ log2 f * 2 ^ (52 - log2 f) := by
          rw [← pow_add]; congr 1; omega
        rw [h52, ← Nat.add_mul, Nat.add_sub_cancel' hk1]
      have hNne : f * 2 ^ (52 - log2 f) ≠ 0 :=
        Nat.mul_ne_zero hf (pow_2_ne_zero _)
      have hlog : log2 (f * 2 ^ (52 - log2 f)) = 52 := by
        apply log2_eq_of
        · calc (2 : Nat) ^ 52 = 2 ^ log2 f * 2 ^ (52 - log2 f) := by
                rw [← pow_add]; congr 1; omega
            _ ≤ f * 2 ^ (52 - log2 f) := Nat.mul_le_mul_right _ hk1
        · calc f * 2 ^ (52 - log2 f) < 2 ^ (log2 f + 1) * 2 ^ (52 - log2 f) :=
                (Nat.mul_lt_mul_right (Nat.two_pow_pos _)).2 hk2
            _ = 2 ^ 53 := by rw [← pow_add]; congr 1; omega
      have hlogc : ((log2 (f * 2 ^ (52 - log2 f)) : Nat) : Int) = 52 := by
        rw [hlog]; norm_num
      have hnarrow : Float64.narrow ⟨sg, log2 f + 874, (f - 2 ^ log2 f) * 2 ^ (52 - log2 f)⟩ =
          mkF32 sg (f * 2 ^ (52 - log2 f)) ((log2 f : Int) + 874 - 1075) := by
        rw [Float64.narrow.eq_def]
        simp only
        rw [if_neg (by omega : ¬(log2 f + 874 = 2047))]
        rw [if_neg (by omega : ¬(log2 f + 874 = 0)), if_neg (by omega : ¬(log2 f + 874 = 0))]
        rw [hN]
        congr 1
      rw [hnarrow]
      rw [mkF32.eq_def]
      rw [if_neg hNne]
      simp only
      split
      next hplt =>
        have hd : ((log2 f : Int) + 874 - 1075 + 149) = -(((52 - log2 f : Nat)) : Int) := by
          omega
        rw [hd, roundShift_exact]
        rw [if_pos hfrac]
      next hplt =>
        exfalso
        rw [hlogc] at hplt
        omega
  · -- normal: 1 <= e <= 254
    have hw : Float32.widen ⟨sg, e, f⟩ = ⟨sg, e + 896, f * 2 ^ 29⟩ := by
      simp [Float32.widen, he, hfin]
    rw [hw]
    have hN : 2 ^ 52 + f * 2 ^ 29 = (2 ^ 23 + f) * 2 ^ 29 := by ring
    have hNne : (2 ^ 23 + f) * 2 ^ 29 ≠ 0 := by positivity
    have hlog : log2 ((2 ^ 23 + f) * 2 ^ 29) = 52 := by
      apply log2_eq_of
      · calc (2 : Nat) ^ 52 = 2 ^ 23 * 2 ^ 29 := by norm_num
          _ ≤ (2 ^ 23 + f) * 2 ^ 29 :=
              Nat.mul_le_mul_right _ (Nat.le_add_right _ _)
      · calc (2 ^ 23 + f) * 2 ^ 29 < 2 ^ 24 * 2 ^ 29 :=
              (Nat.mul_lt_mul_right (Nat.two_pow_pos _)).2 (by omega)
          _ = 2 ^ 53 := by norm_num
    have hlogc : ((log2 ((2 ^ 23 + f) * 2 ^ 29) : Nat) : Int) = 52 := by
      rw [hlog]; norm_num
    have hnarrow : Float64.narrow ⟨sg, e + 896, f * 2 ^ 29⟩ =
        mkF32 sg ((2 ^ 23 + f) * 2 ^ 29) ((e : Int) + 896 - 1075) := by
      rw [Float64.narrow.eq_def]
      simp only
      rw [if_neg (by omega : ¬(e + 896 = 2047))]
      rw [if_neg (by omega : ¬(e + 896 = 0)), if_neg (by omega : ¬(e + 896 = 0))]
      rw [hN]
      congr 1
    rw [hnarrow]
    rw [mkF32.eq_def]
    rw [if_neg hNne]
    simp only
    split
    next hplt =>
      exfalso
      rw [hlogc] at hplt
      omega
    next hplt =>
      rw [hlogc] at hplt
      have hd : ((e : Int) + 896 - 1075 -
          (((log2 ((2 ^ 23 + f) * 2 ^ 29) : Nat) : Int) + ((e : Int) + 896 - 1075)) + 23) =
          -((29 : Nat) : Int) := by
        rw [hlogc]; omega
      rw [hd, roundShift_exact]
      rw [if_pos (by omega : 2 ^ 23 + f < 2 ^ 24)]
      rw [if_pos (by omega : 2 ^ 23 + f < 2 ^ 24)]
      rw [if_neg (by rw [hlogc]; omega)]
      simp only [Float32.mk.injEq, true_and]
      refine ⟨?_, by omega⟩
      rw [hlogc]
      omega

/-! ## Claim theorems -/

/-- C2: for every Vector3 whose components are well-formed finite 32-bit
floats, decoding the wire value produced by encoding it yields exactly
the same Vector3, bit for bit. -/
theorem vector3_roundtrip (v : Vector3)
    (hx : v.x.WF ∧ v.x.Finite) (hy : v.y.WF ∧ v.y.Finite)
    (hz : v.z.WF ∧ v.z.Finite) :
    Vector3.fromValue v.as_msgpack = some v := by
  obtain ⟨⟨hx1, hx2⟩, hx3⟩ := hx
  obtain ⟨⟨hy1, hy2⟩, hy3⟩ := hy
  obtain ⟨⟨hz1, hz2⟩, hz3⟩ := hz
  simp [Vector3.as_msgpack, Vector3.fromValue, Value.as_map, decodePoints, Value.as_f64,
        narrow_widen v.x hx1 hx2 hx3, narrow_widen v.y hy1 hy2 hy3,
        narrow_widen v.z hz1 hz2 hz3]

/-- Witness for C2 at a concrete vector (1.0, -3.0, and a subnormal). -/
theorem vector3_roundtrip_witness :
    Vector3.fromValue (Vector3.as_msgpack ⟨⟨false, 127, 0⟩, ⟨true, 128, 2 ^ 22⟩, ⟨false, 0, 5⟩⟩) =
      some ⟨⟨false, 127, 0⟩, ⟨true, 128, 2 ^ 22⟩, ⟨false, 0, 5⟩⟩ :=
  vector3_roundtrip ⟨⟨false, 127, 0⟩, ⟨true, 128, 2 ^ 22⟩, ⟨false, 0, 5⟩⟩
    ⟨⟨by norm_num, by norm_num⟩, by simp [Float32.Finite]⟩
    ⟨⟨by norm_num, by norm_num⟩, by simp [Float32.Finite]⟩
    ⟨⟨by norm_num, by norm_num⟩, by simp [Float32.Finite]⟩

/-- C9: Vector3 encoding produces a Map of exactly the three pairs
(x_val, y_val, z_val) in schema order, the values being the components
as 32-bit floats, with no widening. -/
theorem vector3_encode_shape (v : Vector3) :
    v.as_msgpack = Value.Map [(Value.Str "x_val", Value.F32 v.x),
                              (Value.Str "y_val", Value.F32 v.y),
                              (Value.Str "z_val", Value.F32 v.z)] := rfl

/-- C7: ImageType encodes each of the nine variants to its fixed integer
wire code 0..8, and to no value outside that range. -/
theorem imageType_wire_codes :
    ImageType.as_msgpack .Scene = Value.Integer 0 ∧
    ImageType.as_msgpack .DepthPlanar = Value.Integer 1 ∧
    ImageType.as_msgpack .DepthPerspective = Value.Integer 2 ∧
    ImageType.as_msgpack .DepthVis = Value.Integer 3 ∧
    ImageType.as_msgpack .DisparityNormalized = Value.Integer 4 ∧
    ImageType.as_msgpack .SurfaceNormals = Value.Integer 5 ∧
    ImageType.as_msgpack .Infrared = Value.Integer 6 ∧
    ImageType.as_msgpack .OpticalFlow = Value.Integer 7 ∧
    ImageType.as_msgpack .OpticalFlowVis = Value.Integer 8 ∧
    ∀ t : ImageType, ∃ n : Int, t.as_msgpack = Value.Integer n ∧ 0 ≤ n ∧ n ≤ 8 := by
  refine ⟨rfl, rfl, rfl, rfl, rfl, rfl, rfl, rfl, rfl, ?_⟩
  intro t
  cases t <;> exact ⟨_, rfl, by norm_num, by norm_num⟩

/-- C5: move_to_position_async sends exactly the nine ordered parameters
x, y, z, velocity, timeout_sec, drivetrain (an integer code), yaw_mode
(a map), lookahead and adaptive_lookahead (integers), the last two
defaulting to -1 and 0 when the caller passes none. -/
theorem moveToPositionAsync_params (position : Position) (velocity timeout_sec : Float32)
    (drivetrain : DrivetrainType) (yaw_mode : YawMode) (la ala : Option Int) :
    moveToPositionAsyncRequest position velocity timeout_sec drivetrain yaw_mode la ala =
      ("moveToPositionAsync",
        [Value.F32 position.x, Value.F32 position.y, Value.F32 position.z,
         Value.F32 velocity, Value.F32 timeout_sec,
         drivetrain.to_msgpack, yaw_mode.to_msgpack,
         Value.Integer (la.getD (-1)), Value.Integer (ala.getD 0)]) ∧
    (∃ n : Int, drivetrain.to_msgpack = Value.Integer n) ∧
    (∃ ps, yaw_mode.to_msgpack = Value.Map ps) := by
  refine ⟨rfl, ?_, ⟨_, rfl⟩⟩
  cases drivetrain <;> exact ⟨_, rfl⟩

/-- C10: move_to_position_async reports success exactly when the
response's error slot is empty, ignoring the result value (a Bool(false)
result still reports true), whereas take_off_async reports true only
when the successful result value is Bool(true). -/
theorem moveToPosition_result_ignores_value :
    (∀ r : Response, moveToPositionResult r = true ↔ ∃ v, r.result = Except.ok v) ∧
    moveToPositionResult ⟨Except.ok (Value.Boolean false)⟩ = true ∧
    takeOffResult ⟨Except.ok (Value.Boolean false)⟩ = false ∧
    (∀ v : Value, takeOffResult ⟨Except.ok v⟩ = true ↔ v.as_bool = some true) := by
  refine ⟨?_, rfl, rfl, ?_⟩
  · intro r
    obtain ⟨res⟩ := r
    cases res with
    | ok v => simp [moveToPositionResult]
    | error e => simp [moveToPositionResult]
  · intro v
    simp [takeOffResult]

theorem decodePoints_snd : ∀ ps qs : List (Value × Value),
    ps.map Prod.snd = qs.map Prod.snd → decodePoints ps = decodePoints qs := by
  intro ps
  induction ps with
  | nil =>
    intro qs h
    cases qs with
    | nil => rfl
    | cons q qs => simp at h
  | cons p ps ih =>
    intro qs h
    cases qs with
    | nil => simp at h
    | cons q qs =>
      simp only [List.map_cons, List.cons.injEq] at h
      obtain ⟨h1, h2⟩ := h
      simp [decodePoints, h1, ih qs h2]

/-- C4: the Vector3 and Quaternionr decoders read map fields by position
only: two map payloads with the same value sequence decode identically,
whatever their key strings are. -/
theorem positional_decode (ps qs : List (Value × Value))
    (h : ps.map Prod.snd = qs.map Prod.snd) :
    Vector3.fromValue (Value.Map ps) = Vector3.fromValue (Value.Map qs) ∧
    Quaternionr.fromValue (Value.Map ps) = Quaternionr.fromValue (Value.Map qs) := by
  have hd := decodePoints_snd ps qs h
  constructor <;> simp [Vector3.fromValue, Quaternionr.fromValue, Value.as_map, hd]

/-- Witness for C4: the same three numeric values under the schema keys
and under unrelated keys decode to the same Vector3. -/
theorem positional_decode_witness :
    Vector3.fromValue (Value.Map [(Value.Str "x_val", Value.F32 f32Zero),
                                  (Value.Str "y_val", Value.F32 f32Zero),
                                  (Value.Str "z_val", Value.F32 f32Zero)]) =
    Vector3.fromValue (Value.Map [(Value.Str "a", Value.F32 f32Zero),
                                  (Value.Nil, Value.F32 f32Zero),
                                  (Value.Integer 7, Value.F32 f32Zero)]) :=
  (positional_decode _ _ rfl).1

theorem decodePoints_length : ∀ (ps : List (Value × Value)) (xs : List Float32),
    decodePoints ps = some xs → xs.length = ps.length := by
  intro ps
  induction ps with
  | nil =>
    intro xs h
    simp only [decodePoints, Option.some.injEq] at h
    simp [← h]
  | cons p ps ih =>
    intro xs h
    simp only [decodePoints, Option.bind_eq_some, Option.some.injEq] at h
    obtain ⟨a, ha, b, hb, hx⟩ := h
    subst hx
    simp [ih b hb]

/-- C1 (amended): the decoders are total in neither the SchemaMismatch
nor any other error-returning sense — on a non-Map input or a map with
fewer entries than the declared field count they abort (none models the
Rust panic) instead of returning a SchemaMismatch value. -/
theorem decode_malformed_aborts :
    (∀ v : Value, v.as_map = none → Vector3.fromValue v = none) ∧
    (∀ ps : List (Value × Value), ps.length < 3 →
      Vector3.fromValue (Value.Map ps) = none) ∧
    (∀ v : Value, v.as_map = none → ImuData.fromResponse ⟨Except.ok v⟩ = none) ∧
    (∀ ps : List (Value × Value), ps.length < 4 →
      ImuData.fromResponse ⟨Except.ok (Value.Map ps)⟩ = none) := by
  refine ⟨?_, ?_, ?_, ?_⟩
  · intro v h
    simp [Vector3.fromValue, h]
  · intro ps h
    cases hv : Vector3.fromValue (Value.Map ps) with
    | none => rfl
    | some v3 =>
      exfalso
      simp only [Vector3.fromValue, Value.as_map, Option.some_bind, Option.bind_eq_some,
                 Option.some.injEq] at hv
      obtain ⟨points, hpts, x, hx, y, hy, z, hz, -⟩ := hv
      obtain ⟨hlt, -⟩ := List.get?_eq_some.1 hz
      have := decodePoints_length ps points hpts
      omega
  · intro v h
    simp [ImuData.fromResponse, h]
  · intro ps h
    cases hv : ImuData.fromResponse ⟨Except.ok (Value.Map ps)⟩ with
    | none => rfl
    | some d =>
      exfalso
      simp only [ImuData.fromResponse, Value.as_map, Option.some_bind, Option.bind_eq_some,
                 Option.some.injEq] at hv
      obtain ⟨kv0, h0, ts, hts, kv1, h1, ori, hori, kv2, h2, av, hav, kv3, h3, la, hla, -⟩ := hv
      obtain ⟨hlt, -⟩ := List.get?_eq_some.1 h3
      omega

/-- C1 counterexample: on the non-Map input Nil the Vector3 decode
aborts (none models the source's unwrap panic); it does not return a
SchemaMismatch result — the decode has no error channel at all. -/
theorem vector3_decode_nil_aborts : Vector3.fromValue Value.Nil = none := rfl

/-- Witness for C1 (amended) at concrete malformed inputs: the empty map
for Vector3, a non-Map result for ImuData. -/
theorem decode_malformed_aborts_witness :
    Vector3.fromValue (Value.Map []) = none ∧
    ImuData.fromResponse ⟨Except.ok Value.Nil⟩ = none :=
  ⟨decode_malformed_aborts.2.1 [] (by norm_num),
   decode_malformed_aborts.2.2.1 Value.Nil rfl⟩

/-- C8: every magnetometer payload the decode accepts yields a record
whose covariance field is the hardcoded 0.0 — the wire covariance is
discarded (the read is commented out in the source). -/
theorem magnetometer_covariance_zero (r : Response) (d : MagnetometerData)
    (h : MagnetometerData.fromResponse r = some d) :
    d.magnetic_field_covariance = f32Zero := by
  obtain ⟨res⟩ := r
  cases res with
  | error e => simp [MagnetometerData.fromResponse] at h
  | ok v =>
    simp only [MagnetometerData.fromResponse, Option.bind_eq_some, Option.some.injEq] at h
    obtain ⟨payload, hp, kv0, h0, ts, hts, mf, hmf, vec, hvec, hd⟩ := h
    subst hd
    rfl

/-- Witness for C8: a fully well-formed payload decodes, and its
covariance is zero. -/
theorem magnetometer_covariance_zero_witness :
    (⟨7, ⟨f32Zero, f32Zero, f32Zero⟩, f32Zero⟩ : MagnetometerData).magnetic_field_covariance
      = f32Zero :=
  magnetometer_covariance_zero magSampleResponse
    ⟨7, ⟨f32Zero, f32Zero, f32Zero⟩, f32Zero⟩ (by rfl)

theorem gnssFixTypeOfCode_none (c : Nat) (h : 3 < c) : gnssFixTypeOfCode c = none := by
  obtain ⟨n, rfl⟩ : ∃ n, c = n + 4 := ⟨c - 4, by omega⟩
  rfl

/-- C6 (amended): a GNSS fix code outside 0..3 makes the decode abort
(the source's match arm aborts the process, modelled by none) rather
than return an UnknownVariant value; the same payload with an in-range
code decodes successfully. -/
theorem gnss_unknown_code_aborts (c : Nat) (h : 3 < c) :
    GnssReport.fromValue (gnssSamplePayload c) = none ∧
    GnssReport.fromValue (gnssSamplePayload 3) ≠ none := by
  constructor
  · have hu : Value.as_u64 (Value.Integer (c : Int)) = some c := by
      simp [Value.as_u64]
    simp only [GnssReport.fromValue, gnssSamplePayload, Value.as_map, Option.some_bind]
    simp only [List.get?, Option.some_bind]
    rw [hu]
    simp only [Option.some_bind, gnssFixTypeOfCode_none c h, Option.none_bind]
    rfl
  · intro hcon
    exact Option.noConfusion hcon

/-- C6 counterexample: the decode of a well-formed report carrying fix
code 9 aborts (none models the source's abort arm) instead of producing
an UnknownVariant result. -/
theorem gnss_code_nine_aborts : GnssReport.fromValue (gnssSamplePayload 9) = none := rfl

/-- Witness for C6 (amended) at the concrete out-of-range code 4. -/
theorem gnss_unknown_code_aborts_witness :
    GnssReport.fromValue (gnssSamplePayload 4) = none ∧
    GnssReport.fromValue (gnssSamplePayload 3) ≠ none :=
  gnss_unknown_code_aborts 4 (by norm_num)

theorem step_inv (s : TransportState) (ev : TransportEvent)
    (h : ∀ i ∈ s.table, i < s.next) :
    ∀ i ∈ (s.step ev).table, i < (s.step ev).next := by
  cases ev with
  | send =>
    intro i hi
    simp only [TransportState.step, List.mem_cons] at hi ⊢
    rcases hi with rfl | hi
    · omega
    · exact Nat.lt_succ_of_lt (h i hi)
  | respond id =>
    by_cases hid : id ∈ s.table <;>
      simp only [TransportState.step, if_pos, if_neg, hid, ite_true, ite_false]
    · intro i hi
      exact h i (List.mem_of_mem_filter hi)
    · exact h
  | timeout id =>
    by_cases hid : id ∈ s.table <;>
      simp only [TransportState.step, if_pos, if_neg, hid, ite_true, ite_false]
    · intro i hi
      exact h i (List.mem_of_mem_filter hi)
    · exact h
  | lost =>
    intro i hi
    simp [TransportState.step] at hi

theorem step_next_mono (s : TransportState) (ev : TransportEvent) :
    s.next ≤ (s.step ev).next := by
  cases ev with
  | send => simp [TransportState.step]
  | respond id => by_cases hid : id ∈ s.table <;> simp [TransportState.step, hid]
  | timeout id => by_cases hid : id ∈ s.table <;> simp [TransportState.step, hid]
  | lost => simp [TransportState.step]

theorem not_in_table_step (s : TransportState) (ev : TransportEvent) (id : Nat)
    (hni : id ∉ s.table) (hlt : id < s.next) :
    id ∉ (s.step ev).table := by
  cases ev with
  | send =>
    simp only [TransportState.step, List.mem_cons, not_or]
    exact ⟨by omega, hni⟩
  | respond i =>
    by_cases hid : i ∈ s.table <;> simp only [TransportState.step, hid, ite_true, ite_false]
    · intro hcon
      exact hni (List.mem_of_mem_filter hcon)
    · exact hni
  | timeout i =>
    by_cases hid : i ∈ s.table <;> simp only [TransportState.step, hid, ite_true, ite_false]
    · intro hcon
      exact hni (List.mem_of_mem_filter hcon)
    · exact hni
  | lost => simp [TransportState.step]

theorem resolves_removes (s : TransportState) (ev : TransportEvent) (id : Nat)
    (h : resolves s ev id = true) : id ∉ (s.step ev).table := by
  cases ev with
  | send => simp [resolves] at h
  | respond i =>
    simp only [resolves, Bool.and_eq_true, beq_iff_eq, decide_eq_true_eq] at h
    obtain ⟨rfl, hmem⟩ := h
    simp only [TransportState.step, hmem, ite_true]
    intro hcon
    have := (List.mem_filter.1 hcon).2
    simp at this
  | timeout i =>
    simp only [resolves, Bool.and_eq_true, beq_iff_eq, decide_eq_true_eq] at h
    obtain ⟨rfl, hmem⟩ := h
    simp only [TransportState.step, hmem, ite_true]
    intro hcon
    have := (List.mem_filter.1 hcon).2
    simp at this
  | lost => simp [TransportState.step]

theorem resolves_mem (s : TransportState) (ev : TransportEvent) (id : Nat)
    (h : resolves s ev id = true) : id ∈ s.table := by
  cases ev with
  | send => simp [resolves] at h
  | respond i =>
    simp only [resolves, Bool.and_eq_true, beq_iff_eq, decide_eq_true_eq] at h
    exact h.2
  | timeout i =>
    simp only [resolves, Bool.and_eq_true, beq_iff_eq, decide_eq_true_eq] at h
    exact h.2
  | lost =>
    simpa [resolves] using h

theorem resolvedCount_zero (evs : List TransportEvent) : ∀ (s : TransportState) (id : Nat),
    id ∉ s.table → id < s.next → resolvedCount s evs id = 0 := by
  induction evs with
  | nil =>
    intro s id _ _
    rfl
  | cons ev rest ih =>
    intro s id hni hlt
    have hres : resolves s ev id = false := by
      cases ev <;> simp [resolves, hni]
    rw [resolvedCount, hres]
    simp only [if_neg, Bool.false_eq_true, not_false_eq_true, ite_false, Nat.zero_add]
    exact ih _ _ (not_in_table_step s ev id hni hlt)
      (Nat.lt_of_lt_of_le hlt (step_next_mono s ev))

theorem resolvedCount_le_one (evs : List TransportEvent) : ∀ (s : TransportState) (id : Nat),
    (∀ i ∈ s.table, i < s.next) → resolvedCount s evs id ≤ 1 := by
  induction evs with
  | nil =>
    intro s id _
    exact Nat.zero_le 1
  | cons ev rest ih =>
    intro s id hinv
    rw [resolvedCount]
    by_cases hres : resolves s ev id = true
    · rw [if_pos hres]
      have hlt : id < s.next := hinv id (resolves_mem s ev id hres)
      have hrest : resolvedCount (s.step ev) rest id = 0 :=
        resolvedCount_zero rest (s.step ev) id (resolves_removes s ev id hres)
          (Nat.lt_of_lt_of_le hlt (step_next_mono s ev))
      omega
    · rw [if_neg hres]
      have := ih (s.step ev) id (step_inv s ev hinv)
      omega

/-- C3 (modelled from the spec, the transport implementation being
outside src/): along every run of the transport from the initial state
each request id is resolved at most once — a response, a timeout and a
connection loss can never resolve the same PendingCall twice — every
resolving event removes the id from the in-flight table, and a
connection loss resolves every id still outstanding, so the three
resolution paths cover every registered call. -/
theorem pendingCall_resolved_once :
    (∀ (evs : List TransportEvent) (id : Nat),
        resolvedCount TransportState.init evs id ≤ 1) ∧
    (∀ (s : TransportState) (ev : TransportEvent) (id : Nat),
        resolves s ev id = true → id ∉ (s.step ev).table) ∧
    (∀ (s : TransportState) (id : Nat), id ∈ s.table →
        resolves s TransportEvent.lost id = true) := by
  refine ⟨?_, resolves_removes, ?_⟩
  · intro evs id
    exact resolvedCount_le_one evs TransportState.init id (by simp [TransportState.init])
  · intro s id hmem
    simp [resolves, hmem]

/-- Witness for C3 on a concrete run: id 0 is sent, resolved by the
response, and the later timeout expiry and connection loss do not
resolve it again; the response removed it from the table; a pending id
is resolved by a connection loss. -/
theorem pendingCall_resolved_once_witness :
    resolvedCount TransportState.init
      [TransportEvent.send, TransportEvent.respond 0,
       TransportEvent.timeout 0, TransportEvent.lost] 0 ≤ 1 ∧
    0 ∉ (TransportState.step ⟨1, [0]⟩ (TransportEvent.respond 0)).table ∧
    resolves ⟨1, [0]⟩ TransportEvent.lost 0 = true :=
  ⟨pendingCall_resolved_once.1 _ 0,
   pendingCall_resolved_once.2.1 ⟨1, [0]⟩ (TransportEvent.respond 0) 0 (by decide),
   pendingCall_resolved_once.2.2 ⟨1, [0]⟩ 0 (by decide)⟩

end AirSim
